import Mathlib

/-!
Verification development for the Tekton escrow and settlement engine
(`src/contracts/contracts/TektonEscrow.sol`).

The contract state and its five mutating operations (`createOffer`,
`acceptOffer`, `requestCancel`, `finalizeCancel`, `reclaimExpired`),
the view functions (`getActiveOffersPaginated`, `getReliabilityScore`)
and the admin operations are shallowly embedded below.

Modelling conventions:
- Addresses and token identifiers are `Nat`; `0` stands for `address(0)`,
  i.e. the native asset (BTC) in token position and the zero address in
  account position.  The hosting chain guarantees `msg.sender ≠ address(0)`,
  which appears as explicit `caller ≠ 0` hypotheses where it matters.
- `uint256` values are modelled as `Nat`.  Solidity 0.8 reverts on
  overflow instead of wrapping, so the Nat model accepts a superset of
  the real executions; all safety statements proved below are universally
  quantified over that superset.
- Every `require(c, m)` becomes a guard returning `Except.error m`; a
  revert leaves the pre-state untouched, which the `Except` encoding
  captures by not producing a post-state at all.
- External interactions (token pulls, payouts, native refunds) and
  internal stores are recorded, in the exact source order of the
  corresponding statements, as an event trace `List Ev`.  Transfers are
  assumed to succeed: a failing transfer reverts the whole call, which
  is again the `Except.error` case.
-/

namespace Tekton

inductive OfferStatus where
  | Open
  | Settled
  | Cancelled
  | Expired
deriving DecidableEq, Repr

/-- `struct Offer` of the source (addresses and amounts as `Nat`). -/
structure Offer where
  maker : Nat
  makerToken : Nat
  makerAmount : Nat
  takerToken : Nat
  takerAmount : Nat
  stake : Nat
  expiry : Nat
  cancelRequestedAt : Nat
  allowedTaker : Nat
  taker : Nat
  status : OfferStatus
deriving DecidableEq, Repr

/-- A Solidity mapping returns the zero value at unset keys: enum value 0
is `Open`, all scalar fields are 0. -/
def defaultOffer : Offer :=
  { maker := 0, makerToken := 0, makerAmount := 0, takerToken := 0,
    takerAmount := 0, stake := 0, expiry := 0, cancelRequestedAt := 0,
    allowedTaker := 0, taker := 0, status := OfferStatus.Open }

/-- `struct TraderProfile` of the source. -/
structure TraderProfile where
  tradesCompleted : Nat
  totalVolume : Nat
  offersCancelled : Nat
  offersExpired : Nat
  firstTradeAt : Nat
deriving DecidableEq, Repr

def defaultProfile : TraderProfile :=
  { tradesCompleted := 0, totalVolume := 0, offersCancelled := 0,
    offersExpired := 0, firstTradeAt := 0 }

/-- The contract storage.  Mappings are total functions defaulting to the
zero record, exactly as Solidity mappings behave. -/
structure EscrowState where
  nextOfferId : Nat
  offers : Nat → Offer
  profiles : Nat → TraderProfile
  userOfferIds : Nat → List Nat
  minStake : Nat
  platformFeeBps : Nat
  feeRecipient : Nat
  accumulatedFees : Nat

def MAX_FEE_BPS : Nat := 500

/-- `30 minutes`. -/
def CANCEL_COOLDOWN : Nat := 1800

/-- `1 hours`. -/
def MIN_EXPIRY_DURATION : Nat := 3600

/-- `10 ether`, the volume cap of the reliability score. -/
def volumeCap : Nat := 10000000000000000000

/-- Point update of a mapping. -/
def updMap {α : Type} (f : Nat → α) (k : Nat) (v : α) : Nat → α :=
  fun i => if i = k then v else f i

/-- One observable step of a mutating operation, in source statement order:
`pullIn` is `safeTransferFrom` into the contract, `refund` is the native
refund of a caller's excess `msg.value`, `payout` is any outbound transfer
of escrowed value (principal legs, ERC20 fee routing, stake refunds),
`writeCore` is a store to `offers` / `profiles` / `userOfferIds` /
`nextOfferId`, and `writeFees` is a store to `accumulatedFees`. -/
inductive Ev where
  | pullIn (token payer amount : Nat)
  | refund (target amount : Nat)
  | payout (token target amount : Nat)
  | writeCore
  | writeFees
deriving DecidableEq, Repr

/-- `_transferOut`: no event when the amount is zero. -/
def transferOutEvs (token target amount : Nat) : List Ev :=
  if amount = 0 then [] else [Ev.payout token target amount]

/-- `amount * bps / 10000`, the fee formula of `acceptOffer`. -/
def feeOf (amount bps : Nat) : Nat := amount * bps / 10000

def makerFeeOf (o : Offer) (bps : Nat) : Nat := feeOf o.takerAmount bps
def takerFeeOf (o : Offer) (bps : Nat) : Nat := feeOf o.makerAmount bps
def makerReceivesOf (o : Offer) (bps : Nat) : Nat := o.takerAmount - makerFeeOf o bps
def takerReceivesOf (o : Offer) (bps : Nat) : Nat := o.makerAmount - takerFeeOf o bps

/-- Fee routing of `acceptOffer`: native fees are accumulated
(`accumulatedFees` store), ERC20 fees are transferred out immediately
when nonzero. -/
def feeRouteEvs (token recipient fee : Nat) : List Ev :=
  if token = 0 then [Ev.writeFees]
  else if 0 < fee then [Ev.payout token recipient fee]
  else []

/-- `_recordTrade`: bump `tradesCompleted`, add the volume, set
`firstTradeAt` only the first time. -/
def recordTrade (p : TraderProfile) (now volume : Nat) : TraderProfile :=
  { p with
    tradesCompleted := p.tradesCompleted + 1,
    totalVolume := p.totalVolume + volume,
    firstTradeAt := if p.firstTradeAt = 0 then now else p.firstTradeAt }

def recordTradeMap (profiles : Nat → TraderProfile) (trader now volume : Nat) :
    Nat → TraderProfile :=
  updMap profiles trader (recordTrade (profiles trader) now volume)

/-- Post-state of a successful `createOffer`. -/
def createState (s : EscrowState)
    (caller makerToken makerAmount takerToken takerAmount expiry allowedTaker : Nat) :
    EscrowState :=
  { s with
    nextOfferId := s.nextOfferId + 1,
    offers := updMap s.offers s.nextOfferId
      { maker := caller, makerToken := makerToken, makerAmount := makerAmount,
        takerToken := takerToken, takerAmount := takerAmount, stake := s.minStake,
        expiry := expiry, cancelRequestedAt := 0, allowedTaker := allowedTaker,
        taker := 0, status := OfferStatus.Open },
    userOfferIds := updMap s.userOfferIds caller
      (s.userOfferIds caller ++ [s.nextOfferId]) }

/-- Trace of `createOffer` when the maker sells the native asset:
optional excess refund, then the three stores. -/
def createEvsNative (caller value makerAmount stake : Nat) : List Ev :=
  (if 0 < value - makerAmount - stake then
      [Ev.refund caller (value - makerAmount - stake)]
    else [])
    ++ [Ev.writeCore, Ev.writeCore, Ev.writeCore]

/-- Trace of `createOffer` when the maker sells an ERC20: optional excess
refund, the `safeTransferFrom` pull, then the three stores. -/
def createEvsToken (caller value makerToken makerAmount stake : Nat) : List Ev :=
  (if 0 < value - stake then [Ev.refund caller (value - stake)] else [])
    ++ [Ev.pullIn makerToken caller makerAmount, Ev.writeCore, Ev.writeCore, Ev.writeCore]

/-- `createOffer`, with the source's `require` chain in order. -/
def createOffer (s : EscrowState)
    (caller value now makerToken makerAmount takerToken takerAmount expiry allowedTaker : Nat) :
    Except String (EscrowState × List Ev) :=
  if makerAmount = 0 then .error "Maker amount is zero"
  else if takerAmount = 0 then .error "Taker amount is zero"
  else if expiry ≤ now then .error "Expiry in the past"
  else if expiry < now + MIN_EXPIRY_DURATION then .error "Expiry too soon (min 1h)"
  else if makerToken = takerToken then .error "Cannot trade same token"
  else if makerToken = 0 then
    if value < makerAmount + s.minStake then .error "Insufficient BTC sent"
    else .ok (createState s caller makerToken makerAmount takerToken takerAmount expiry allowedTaker,
              createEvsNative caller value makerAmount s.minStake)
  else
    if value < s.minStake then .error "Insufficient stake"
    else .ok (createState s caller makerToken makerAmount takerToken takerAmount expiry allowedTaker,
              createEvsToken caller value makerToken makerAmount s.minStake)

/-- Post-state of a successful `acceptOffer`: offer settled, both
reputations updated (`_recordTrade(maker, makerAmount)` then
`_recordTrade(caller, takerAmount)`), taker's offer index extended,
native fees accumulated. -/
def acceptState (s : EscrowState) (caller now offerId : Nat) : EscrowState :=
  { s with
    offers := updMap s.offers offerId
      { s.offers offerId with
        taker := caller, status := OfferStatus.Settled, cancelRequestedAt := 0 },
    profiles := recordTradeMap
      (recordTradeMap s.profiles (s.offers offerId).maker now (s.offers offerId).makerAmount)
      caller now (s.offers offerId).takerAmount,
    userOfferIds := updMap s.userOfferIds caller (s.userOfferIds caller ++ [offerId]),
    accumulatedFees := s.accumulatedFees
      + (if (s.offers offerId).takerToken = 0
          then makerFeeOf (s.offers offerId) s.platformFeeBps else 0)
      + (if (s.offers offerId).makerToken = 0
          then takerFeeOf (s.offers offerId) s.platformFeeBps else 0) }

/-- Taker-side intake of `acceptOffer`: native branch refunds any excess
`msg.value`, the ERC20 branch pulls `takerAmount` and ignores `msg.value`. -/
def takerInEvs (offer : Offer) (caller value : Nat) : List Ev :=
  if offer.takerToken = 0 then
    (if 0 < value - offer.takerAmount then
        [Ev.refund caller (value - offer.takerAmount)]
      else [])
  else [Ev.pullIn offer.takerToken caller offer.takerAmount]

/-- Full trace of a successful `acceptOffer`, in source statement order:
intake, the four stores (offer, two profiles, index push), fee routing for
both legs, both principal payouts, stake refund. -/
def acceptEvs (s : EscrowState) (caller value offerId : Nat) : List Ev :=
  takerInEvs (s.offers offerId) caller value
    ++ [Ev.writeCore, Ev.writeCore, Ev.writeCore, Ev.writeCore]
    ++ feeRouteEvs (s.offers offerId).takerToken s.feeRecipient
        (makerFeeOf (s.offers offerId) s.platformFeeBps)
    ++ feeRouteEvs (s.offers offerId).makerToken s.feeRecipient
        (takerFeeOf (s.offers offerId) s.platformFeeBps)
    ++ transferOutEvs (s.offers offerId).takerToken (s.offers offerId).maker
        (makerReceivesOf (s.offers offerId) s.platformFeeBps)
    ++ transferOutEvs (s.offers offerId).makerToken caller
        (takerReceivesOf (s.offers offerId) s.platformFeeBps)
    ++ (if 0 < (s.offers offerId).stake then
          [Ev.payout 0 (s.offers offerId).maker (s.offers offerId).stake]
        else [])

/-- `acceptOffer`, with the source's `require` chain in order.  The
`msg.value` check exists only on the native-taker-asset branch. -/
def acceptOffer (s : EscrowState) (caller value now offerId : Nat) :
    Except String (EscrowState × List Ev) :=
  if (s.offers offerId).status ≠ OfferStatus.Open then .error "Offer not open"
  else if (s.offers offerId).expiry ≤ now then .error "Offer expired"
  else if (s.offers offerId).maker = caller then .error "Cannot accept own offer"
  else if ¬ ((s.offers offerId).allowedTaker = 0 ∨ (s.offers offerId).allowedTaker = caller) then
    .error "Not allowed taker"
  else if (s.offers offerId).takerToken = 0 ∧ value < (s.offers offerId).takerAmount then
    .error "Insufficient BTC"
  else .ok (acceptState s caller now offerId, acceptEvs s caller value offerId)

/-- Post-state of a successful `requestCancel`. -/
def requestState (s : EscrowState) (now offerId : Nat) : EscrowState :=
  { s with
    offers := updMap s.offers offerId
      { s.offers offerId with cancelRequestedAt := now } }

/-- `requestCancel`: records the request timestamp; no asset movement. -/
def requestCancel (s : EscrowState) (caller now offerId : Nat) :
    Except String (EscrowState × List Ev) :=
  if (s.offers offerId).maker ≠ caller then .error "Not the maker"
  else if (s.offers offerId).status ≠ OfferStatus.Open then .error "Offer not open"
  else if (s.offers offerId).cancelRequestedAt ≠ 0 then .error "Cancel already requested"
  else .ok (requestState s now offerId, [Ev.writeCore])

/-- Post-state of a successful `finalizeCancel`. -/
def finalizeState (s : EscrowState) (offerId : Nat) : EscrowState :=
  { s with
    offers := updMap s.offers offerId
      { s.offers offerId with status := OfferStatus.Cancelled },
    profiles := updMap s.profiles (s.offers offerId).maker
      { s.profiles (s.offers offerId).maker with
        offersCancelled := (s.profiles (s.offers offerId).maker).offersCancelled + 1 } }

/-- Common tail of `finalizeCancel` / `reclaimExpired`: the two stores,
the principal refund, the stake refund. -/
def refundEvs (offer : Offer) : List Ev :=
  [Ev.writeCore, Ev.writeCore]
    ++ transferOutEvs offer.makerToken offer.maker offer.makerAmount
    ++ (if 0 < offer.stake then [Ev.payout 0 offer.maker offer.stake] else [])

/-- `finalizeCancel`, with the source's `require` chain in order. -/
def finalizeCancel (s : EscrowState) (caller now offerId : Nat) :
    Except String (EscrowState × List Ev) :=
  if (s.offers offerId).maker ≠ caller then .error "Not the maker"
  else if (s.offers offerId).status ≠ OfferStatus.Open then .error "Offer not open"
  else if (s.offers offerId).cancelRequestedAt = 0 then .error "Cancel not requested"
  else if now < (s.offers offerId).cancelRequestedAt + CANCEL_COOLDOWN then
    .error "Cooldown not elapsed"
  else .ok (finalizeState s offerId, refundEvs (s.offers offerId))

/-- Post-state of a successful `reclaimExpired`. -/
def reclaimState (s : EscrowState) (offerId : Nat) : EscrowState :=
  { s with
    offers := updMap s.offers offerId
      { s.offers offerId with status := OfferStatus.Expired },
    profiles := updMap s.profiles (s.offers offerId).maker
      { s.profiles (s.offers offerId).maker with
        offersExpired := (s.profiles (s.offers offerId).maker).offersExpired + 1 } }

/-- `reclaimExpired`, with the source's `require` chain in order. -/
def reclaimExpired (s : EscrowState) (caller now offerId : Nat) :
    Except String (EscrowState × List Ev) :=
  if (s.offers offerId).maker ≠ caller then .error "Not the maker"
  else if (s.offers offerId).status ≠ OfferStatus.Open then .error "Offer not open"
  else if now < (s.offers offerId).expiry then .error "Not yet expired"
  else .ok (reclaimState s offerId, refundEvs (s.offers offerId))

/-- One state-mutating call of the offer state machine, bundling the
caller identity, attached native value and block timestamp. -/
inductive MCall where
  | create (caller value now makerToken makerAmount takerToken takerAmount
      expiry allowedTaker : Nat)
  | accept (caller value now offerId : Nat)
  | reqCancel (caller now offerId : Nat)
  | finCancel (caller now offerId : Nat)
  | reclaim (caller now offerId : Nat)
deriving DecidableEq, Repr

def runM (s : EscrowState) : MCall → Except String (EscrowState × List Ev)
  | .create caller value now mt ma tt ta ex al =>
      createOffer s caller value now mt ma tt ta ex al
  | .accept caller value now offerId => acceptOffer s caller value now offerId
  | .reqCancel caller now offerId => requestCancel s caller now offerId
  | .finCancel caller now offerId => finalizeCancel s caller now offerId
  | .reclaim caller now offerId => reclaimExpired s caller now offerId

def callerOf : MCall → Nat
  | .create caller _ _ _ _ _ _ _ _ => caller
  | .accept caller _ _ _ => caller
  | .reqCancel caller _ _ => caller
  | .finCancel caller _ _ => caller
  | .reclaim caller _ _ => caller

/-- The offer id a call operates on (`none` for `createOffer`). -/
def targetOf : MCall → Option Nat
  | .create _ _ _ _ _ _ _ _ _ => none
  | .accept _ _ _ offerId => some offerId
  | .reqCancel _ _ offerId => some offerId
  | .finCancel _ _ offerId => some offerId
  | .reclaim _ _ offerId => some offerId

/-- Whether the call is one of the three settling transitions
(`acceptOffer` / `finalizeCancel` / `reclaimExpired`). -/
def settles : MCall → Bool
  | .accept _ _ _ _ => true
  | .finCancel _ _ _ => true
  | .reclaim _ _ _ => true
  | _ => false

/-- The constructor's post-state (fee cap and recipient checks are
hypotheses of `Reachable.init`). -/
def initialState (minStake feeBps feeRecipient : Nat) : EscrowState :=
  { nextOfferId := 0, offers := fun _ => defaultOffer,
    profiles := fun _ => defaultProfile, userOfferIds := fun _ => [],
    minStake := minStake, platformFeeBps := feeBps,
    feeRecipient := feeRecipient, accumulatedFees := 0 }

def setMinStake (s : EscrowState) (v : Nat) : EscrowState := { s with minStake := v }

def setPlatformFee (s : EscrowState) (bps : Nat) : Except String EscrowState :=
  if MAX_FEE_BPS < bps then .error "Fee exceeds cap"
  else .ok { s with platformFeeBps := bps }

def setFeeRecipient (s : EscrowState) (recipient : Nat) : Except String EscrowState :=
  if recipient = 0 then .error "Invalid recipient"
  else .ok { s with feeRecipient := recipient }

def withdrawFees (s : EscrowState) : Except String EscrowState :=
  if s.accumulatedFees = 0 then .error "No fees to withdraw"
  else .ok { s with accumulatedFees := 0 }

/-- States reachable from deployment through the contract's operations.
`callerOf c ≠ 0` reflects the chain guarantee `msg.sender ≠ address(0)`.
The admin operations are included without their `onlyOwner` gate: allowing
more callers only enlarges the reachable set, so every invariant proved
over `Reachable` also holds for the owner-gated contract. -/
inductive Reachable : EscrowState → Prop where
  | init (minStake feeBps feeRecipient : Nat) (hFee : feeBps ≤ MAX_FEE_BPS)
      (hRecipient : feeRecipient ≠ 0) :
      Reachable (initialState minStake feeBps feeRecipient)
  | step (s : EscrowState) (c : MCall) (r : EscrowState × List Ev)
      (hs : Reachable s) (hc : callerOf c ≠ 0) (h : runM s c = Except.ok r) :
      Reachable r.1
  | adminStake (s : EscrowState) (v : Nat) (hs : Reachable s) :
      Reachable (setMinStake s v)
  | adminFee (s : EscrowState) (bps : Nat) (s2 : EscrowState) (hs : Reachable s)
      (h : setPlatformFee s bps = Except.ok s2) : Reachable s2
  | adminRecipient (s : EscrowState) (recipient : Nat) (s2 : EscrowState)
      (hs : Reachable s) (h : setFeeRecipient s recipient = Except.ok s2) :
      Reachable s2
  | adminWithdraw (s : EscrowState) (s2 : EscrowState) (hs : Reachable s)
      (h : withdrawFees s = Except.ok s2) : Reachable s2

/-- The `Open ∧ now < expiry` filter of the active-offer queries. -/
def isActive (s : EscrowState) (now i : Nat) : Bool :=
  decide ((s.offers i).status = OfferStatus.Open) && decide (now < (s.offers i).expiry)

/-- The full active-offer listing, ascending ids. -/
def activeIds (s : EscrowState) (now : Nat) : List Nat :=
  (List.range s.nextOfferId).filter (isActive s now)

/-- The collection loop of `getActiveOffersPaginated`: walk the candidate
ids, skip the first `start` matches, stop after `pageSize` collected. -/
def collectPage (act : Nat → Bool) (start pageSize : Nat) :
    List Nat → Nat → Nat → List Nat
  | [], _, _ => []
  | i :: is, skipped, collected =>
    if pageSize ≤ collected then []
    else if act i then
      (if skipped < start then collectPage act start pageSize is (skipped + 1) collected
       else i :: collectPage act start pageSize is skipped (collected + 1))
    else collectPage act start pageSize is skipped collected

structure PageResult where
  ids : List Nat
  activeOffers : List Offer
  totalActive : Nat
deriving DecidableEq, Repr

/-- `getActiveOffersPaginated`: count pass, clamped `start` and
`pageSize`, then the collection pass.  The source fills `ids` and
`activeOffers` at the same index in the same iteration, which the `map`
reproduces. -/
def getActiveOffersPaginated (s : EscrowState) (now offset limit : Nat) : PageResult :=
  { ids := collectPage (isActive s now)
      (if (activeIds s now).length < offset then (activeIds s now).length else offset)
      (if (activeIds s now).length
            - (if (activeIds s now).length < offset then (activeIds s now).length else offset)
          < limit then
         (activeIds s now).length
            - (if (activeIds s now).length < offset then (activeIds s now).length else offset)
       else limit)
      (List.range s.nextOfferId) 0 0,
    activeOffers :=
      (collectPage (isActive s now)
        (if (activeIds s now).length < offset then (activeIds s now).length else offset)
        (if (activeIds s now).length
              - (if (activeIds s now).length < offset then (activeIds s now).length else offset)
            < limit then
           (activeIds s now).length
              - (if (activeIds s now).length < offset then (activeIds s now).length else offset)
         else limit)
        (List.range s.nextOfferId) 0 0).map s.offers,
    totalActive := (activeIds s now).length }

/-- `getReliabilityScore`: completion points (0-80), age bonus (0-10),
volume bonus (0-10); zero when the profile has no history. -/
def getReliabilityScore (s : EscrowState) (now user : Nat) : Nat :=
  if (s.profiles user).tradesCompleted + (s.profiles user).offersCancelled
      + (s.profiles user).offersExpired = 0 then 0
  else
    (s.profiles user).tradesCompleted * 80
        / ((s.profiles user).tradesCompleted + (s.profiles user).offersCancelled
            + (s.profiles user).offersExpired)
      + (if 0 < (s.profiles user).firstTradeAt then
          (if 90 ≤ (now - (s.profiles user).firstTradeAt) / 86400 then 10
           else (now - (s.profiles user).firstTradeAt) / 86400 * 10 / 90)
         else 0)
      + (if volumeCap ≤ (s.profiles user).totalVolume then 10
         else (s.profiles user).totalVolume * 10 / volumeCap)

/-- External asset movements versus internal stores, the classification
used by the checks-effects-interactions claims. -/
def isExternal : Ev → Bool
  | .pullIn _ _ _ => true
  | .refund _ _ => true
  | .payout _ _ _ => true
  | .writeCore => false
  | .writeFees => false

/-- Phase of an event in a mutating call: intake and caller refunds (0),
core stores (1), fee routing and payouts (2). -/
def phase : Ev → Nat
  | .pullIn _ _ _ => 0
  | .refund _ _ => 0
  | .writeCore => 1
  | .payout _ _ _ => 2
  | .writeFees => 2

/-- The literal reading of the checks-effects-interactions claim: after
the first external asset movement no internal store follows, i.e. the
trace is internal stores first, externals last. -/
def internalThenExternal (tr : List Ev) : Bool :=
  (tr.dropWhile fun e => ! isExternal e).all isExternal

def isOk {α : Type} (e : Except String α) : Bool :=
  match e with
  | .ok _ => true
  | .error _ => false

def errOf {α : Type} (e : Except String α) : Option String :=
  match e with
  | .ok _ => none
  | .error m => some m

def traceOf (e : Except String (EscrowState × List Ev)) : List Ev :=
  match e with
  | .ok r => r.2
  | .error _ => []

def stateAfter (e : Except String (EscrowState × List Ev)) (fallback : EscrowState) :
    EscrowState :=
  match e with
  | .ok r => r.1
  | .error _ => fallback

end Tekton

namespace Tekton

theorem updMap_eq {α : Type} (f : Nat → α) (k : Nat) (v : α) : updMap f k v k = v := by
  simp [updMap]

theorem updMap_ne {α : Type} (f : Nat → α) (k : Nat) (v : α) {i : Nat} (h : i ≠ k) :
    updMap f k v i = f i := by
  simp [updMap, h]

/-- Success characterization of `createOffer` (post-state part). -/
theorem createOffer_ok_state {s : EscrowState}
    {caller value now mt ma tt ta ex al : Nat} {r : EscrowState × List Ev}
    (h : createOffer s caller value now mt ma tt ta ex al = Except.ok r) :
    r.1 = createState s caller mt ma tt ta ex al := by
  unfold createOffer at h
  split_ifs at h with h1 h2 h3 h4 h5 h6 h7 h8
  all_goals injection h with h
  all_goals subst h
  all_goals rfl

/-- Success characterization of `acceptOffer`. -/
theorem acceptOffer_ok_dest {s : EscrowState} {caller value now offerId : Nat}
    {r : EscrowState × List Ev}
    (h : acceptOffer s caller value now offerId = Except.ok r) :
    (s.offers offerId).status = OfferStatus.Open ∧
    now < (s.offers offerId).expiry ∧
    (s.offers offerId).maker ≠ caller ∧
    ((s.offers offerId).allowedTaker = 0 ∨ (s.offers offerId).allowedTaker = caller) ∧
    r = (acceptState s caller now offerId, acceptEvs s caller value offerId) := by
  unfold acceptOffer at h
  split_ifs at h with h1 h2 h3 h4 h5
  injection h with h
  subst h
  exact ⟨by tauto, by omega, by tauto, by tauto, rfl⟩

/-- Success characterization of `requestCancel`. -/
theorem requestCancel_ok_dest {s : EscrowState} {caller now offerId : Nat}
    {r : EscrowState × List Ev}
    (h : requestCancel s caller now offerId = Except.ok r) :
    (s.offers offerId).maker = caller ∧
    (s.offers offerId).status = OfferStatus.Open ∧
    (s.offers offerId).cancelRequestedAt = 0 ∧
    r = (requestState s now offerId, [Ev.writeCore]) := by
  unfold requestCancel at h
  split_ifs at h with h1 h2 h3
  injection h with h
  subst h
  exact ⟨by tauto, by tauto, by tauto, rfl⟩

/-- Success characterization of `finalizeCancel`. -/
theorem finalizeCancel_ok_dest {s : EscrowState} {caller now offerId : Nat}
    {r : EscrowState × List Ev}
    (h : finalizeCancel s caller now offerId = Except.ok r) :
    (s.offers offerId).maker = caller ∧
    (s.offers offerId).status = OfferStatus.Open ∧
    0 < (s.offers offerId).cancelRequestedAt ∧
    (s.offers offerId).cancelRequestedAt + CANCEL_COOLDOWN ≤ now ∧
    r = (finalizeState s offerId, refundEvs (s.offers offerId)) := by
  unfold finalizeCancel at h
  split_ifs at h with h1 h2 h3 h4
  injection h with h
  subst h
  exact ⟨by tauto, by tauto, by omega, by omega, rfl⟩

/-- `finalizeCancel` succeeds whenever its four preconditions hold. -/
theorem finalizeCancel_ok_of {s : EscrowState} {caller now offerId : Nat}
    (h1 : (s.offers offerId).maker = caller)
    (h2 : (s.offers offerId).status = OfferStatus.Open)
    (h3 : (s.offers offerId).cancelRequestedAt ≠ 0)
    (h4 : (s.offers offerId).cancelRequestedAt + CANCEL_COOLDOWN ≤ now) :
    finalizeCancel s caller now offerId
      = Except.ok (finalizeState s offerId, refundEvs (s.offers offerId)) := by
  unfold finalizeCancel
  simp [h1, h2, h3, Nat.not_lt.mpr h4]

/-- Success characterization of `reclaimExpired`. -/
theorem reclaimExpired_ok_dest {s : EscrowState} {caller now offerId : Nat}
    {r : EscrowState × List Ev}
    (h : reclaimExpired s caller now offerId = Except.ok r) :
    (s.offers offerId).maker = caller ∧
    (s.offers offerId).status = OfferStatus.Open ∧
    (s.offers offerId).expiry ≤ now ∧
    r = (reclaimState s offerId, refundEvs (s.offers offerId)) := by
  unfold reclaimExpired at h
  split_ifs at h with h1 h2 h3
  injection h with h
  subst h
  exact ⟨by tauto, by tauto, by omega, rfl⟩

end Tekton

namespace Tekton

/-- If a trader's counter is still zero after a `recordTrade` map update,
that account was not the updated one. -/
theorem recordTradeMap_zero {profiles : Nat → TraderProfile} {trader now volume a : Nat}
    (h : (recordTradeMap profiles trader now volume a).tradesCompleted = 0) :
    recordTradeMap profiles trader now volume a = profiles a := by
  unfold recordTradeMap updMap at h ⊢
  by_cases hq : a = trader
  · subst hq
    simp [recordTrade] at h
  · simp [hq]

/-- The ledger invariant carried through every reachable state: ids at or
beyond `nextOfferId` still hold the zero record, a profile without
completed trades has zero volume and no first-trade timestamp, and the
platform fee never exceeds the hard cap. -/
def GoodState (s : EscrowState) : Prop :=
  (∀ i, s.nextOfferId ≤ i → s.offers i = defaultOffer) ∧
  (∀ a, (s.profiles a).tradesCompleted = 0 →
      (s.profiles a).totalVolume = 0 ∧ (s.profiles a).firstTradeAt = 0) ∧
  s.platformFeeBps ≤ MAX_FEE_BPS

theorem reachable_good {s : EscrowState} (h : Reachable s) : GoodState s := by
  induction h with
  | init minStake feeBps feeRecipient hFee hRecipient =>
      exact ⟨fun i _ => rfl, fun a _ => ⟨rfl, rfl⟩, hFee⟩
  | step s c r hs hc hok ih =>
      obtain ⟨ihOffers, ihProf, ihFee⟩ := ih
      cases c with
      | create caller value now mt ma tt ta ex al =>
          have hok2 : createOffer s caller value now mt ma tt ta ex al = Except.ok r := hok
          rw [createOffer_ok_state hok2]
          refine ⟨fun i hi => ?_, fun a ha => ihProf a ha, ihFee⟩
          have hne : i ≠ s.nextOfferId := by
            simp only [createState] at hi
            omega
          simp only [createState]
          rw [updMap_ne _ _ _ hne]
          apply ihOffers
          simp only [createState] at hi
          omega
      | accept caller value now offerId =>
          have hok2 : acceptOffer s caller value now offerId = Except.ok r := hok
          obtain ⟨hOpen, hExp, hMk, hAl, hr⟩ := acceptOffer_ok_dest hok2
          have hlt : offerId < s.nextOfferId := by
            by_contra hge
            push_neg at hge
            rw [ihOffers offerId hge] at hExp
            simp [defaultOffer] at hExp
          rw [hr]
          refine ⟨fun i hi => ?_, fun a ha => ?_, ihFee⟩
          · have hne : i ≠ offerId := by
              simp only [acceptState] at hi
              omega
            simp only [acceptState]
            rw [updMap_ne _ _ _ hne]
            apply ihOffers
            simp only [acceptState] at hi
            omega
          · simp only [acceptState] at ha ⊢
            have e1 := recordTradeMap_zero ha
            rw [e1] at ha
            have e2 := recordTradeMap_zero ha
            rw [e2] at ha
            rw [e1, e2]
            exact ihProf a ha
      | reqCancel caller now offerId =>
          have hok2 : requestCancel s caller now offerId = Except.ok r := hok
          obtain ⟨hMk, hOpen, hCancel, hr⟩ := requestCancel_ok_dest hok2
          have hlt : offerId < s.nextOfferId := by
            by_contra hge
            push_neg at hge
            rw [ihOffers offerId hge] at hMk
            simp only [defaultOffer] at hMk
            exact hc hMk.symm
          rw [hr]
          refine ⟨fun i hi => ?_, fun a ha => ihProf a ha, ihFee⟩
          have hne : i ≠ offerId := by
            simp only [requestState] at hi
            omega
          simp only [requestState]
          rw [updMap_ne _ _ _ hne]
          apply ihOffers
          simp only [requestState] at hi
          omega
      | finCancel caller now offerId =>
          have hok2 : finalizeCancel s caller now offerId = Except.ok r := hok
          obtain ⟨hMk, hOpen, hCancel, hCool, hr⟩ := finalizeCancel_ok_dest hok2
          have hlt : offerId < s.nextOfferId := by
            by_contra hge
            push_neg at hge
            rw [ihOffers offerId hge] at hMk
            simp only [defaultOffer] at hMk
            exact hc hMk.symm
          rw [hr]
          refine ⟨fun i hi => ?_, fun a ha => ?_, ihFee⟩
          · have hne : i ≠ offerId := by
              simp only [finalizeState] at hi
              omega
            simp only [finalizeState]
            rw [updMap_ne _ _ _ hne]
            apply ihOffers
            simp only [finalizeState] at hi
            omega
          · simp only [finalizeState, updMap] at ha ⊢
            by_cases hq : a = (s.offers offerId).maker
            · simp only [hq, if_pos rfl] at ha ⊢
              exact ihProf _ ha
            · simp only [if_neg hq] at ha ⊢
              exact ihProf a ha
      | reclaim caller now offerId =>
          have hok2 : reclaimExpired s caller now offerId = Except.ok r := hok
          obtain ⟨hMk, hOpen, hExp, hr⟩ := reclaimExpired_ok_dest hok2
          have hlt : offerId < s.nextOfferId := by
            by_contra hge
            push_neg at hge
            rw [ihOffers offerId hge] at hMk
            simp only [defaultOffer] at hMk
            exact hc hMk.symm
          rw [hr]
          refine ⟨fun i hi => ?_, fun a ha => ?_, ihFee⟩
          · have hne : i ≠ offerId := by
              simp only [reclaimState] at hi
              omega
            simp only [reclaimState]
            rw [updMap_ne _ _ _ hne]
            apply ihOffers
            simp only [reclaimState] at hi
            omega
          · simp only [reclaimState, updMap] at ha ⊢
            by_cases hq : a = (s.offers offerId).maker
            · simp only [hq, if_pos rfl] at ha ⊢
              exact ihProf _ ha
            · simp only [if_neg hq] at ha ⊢
              exact ihProf a ha
  | adminStake s v hs ih =>
      exact ⟨ih.1, ih.2.1, ih.2.2⟩
  | adminFee s bps s2 hs h ih =>
      unfold setPlatformFee at h
      split_ifs at h with hcap
      injection h with h
      subst h
      refine ⟨ih.1, ih.2.1, ?_⟩
      show bps ≤ MAX_FEE_BPS
      omega
  | adminRecipient s recipient s2 hs h ih =>
      unfold setFeeRecipient at h
      split_ifs at h with hz
      injection h with h
      subst h
      exact ⟨ih.1, ih.2.1, ih.2.2⟩
  | adminWithdraw s s2 hs h ih =>
      unfold withdrawFees at h
      split_ifs at h with hz
      injection h with h
      subst h
      exact ⟨ih.1, ih.2.1, ih.2.2⟩

end Tekton

namespace Tekton

/-- Concrete open offer used by the concrete instances below: maker 1
sells 100 native units for 50 units of token 7, stake 5, expiry 10000. -/
def exOpenOffer : Offer :=
  { maker := 1, makerToken := 0, makerAmount := 100, takerToken := 7,
    takerAmount := 50, stake := 5, expiry := 10000, cancelRequestedAt := 0,
    allowedTaker := 0, taker := 0, status := OfferStatus.Open }

/-- Concrete ledger holding `exOpenOffer` at id 0. -/
def exOpenState : EscrowState :=
  { nextOfferId := 1, offers := updMap (fun _ => defaultOffer) 0 exOpenOffer,
    profiles := fun _ => defaultProfile, userOfferIds := fun _ => [],
    minStake := 5, platformFeeBps := 0, feeRecipient := 9, accumulatedFees := 0 }

/-- Deployment state of the concrete reachable run. -/
def exSt0 : EscrowState := initialState 5 30 9

/-- First step of the concrete run: maker 1 creates the offer of
`exOpenOffer`'s shape (native maker asset, value covers amount + stake). -/
def exCreate : MCall := MCall.create 1 105 0 0 100 7 50 4000 0

def exRes1 : Except String (EscrowState × List Ev) := runM exSt0 exCreate

def exSt1 : EscrowState := stateAfter exRes1 exSt0

/-- Second step: account 2 accepts offer 0 at time 10. -/
def exAccept : MCall := MCall.accept 2 0 10 0

def exRes2 : Except String (EscrowState × List Ev) := runM exSt1 exAccept

def exSt2 : EscrowState := stateAfter exRes2 exSt0

theorem exSt1_reachable : Reachable exSt1 :=
  Reachable.step exSt0 exCreate (exSt1, traceOf exRes1)
    (Reachable.init 5 30 9 (by decide) (by decide)) (by decide) rfl

theorem exSt2_reachable : Reachable exSt2 :=
  Reachable.step exSt1 exAccept (exSt2, traceOf exRes2) exSt1_reachable (by decide) rfl

end Tekton

namespace Tekton

/-- The collection loop of the paginated query computes a
`drop`-then-`take` slice of the filtered candidate list. -/
theorem collectPage_eq (act : Nat → Bool) (start pageSize : Nat) :
    ∀ (l : List Nat) (skipped collected : Nat),
      collectPage act start pageSize l skipped collected
        = ((l.filter act).drop (start - skipped)).take (pageSize - collected) := by
  intro l
  induction l with
  | nil =>
      intro skipped collected
      simp [collectPage]
  | cons i is ih =>
      intro skipped collected
      by_cases hcol : pageSize ≤ collected
      · have h0 : pageSize - collected = 0 := by omega
        simp [collectPage, hcol, h0]
      · by_cases hact : act i
        · by_cases hskip : skipped < start
          · have hd : start - skipped = (start - (skipped + 1)) + 1 := by omega
            simp only [collectPage, if_neg hcol, if_pos hact, if_pos hskip]
            rw [ih (skipped + 1) collected, List.filter_cons_of_pos hact, hd,
              List.drop_succ_cons]
          · have h0 : start - skipped = 0 := by omega
            have hp : pageSize - collected = (pageSize - (collected + 1)) + 1 := by omega
            simp only [collectPage, if_neg hcol, if_pos hact, if_neg hskip]
            rw [ih skipped (collected + 1), List.filter_cons_of_pos hact, h0,
              List.drop_zero, List.drop_zero, hp, List.take_succ_cons]
        · simp only [collectPage, if_neg hcol, if_neg hact]
          rw [ih skipped collected, List.filter_cons_of_neg hact]

end Tekton

namespace Tekton

/-- Claim C6: for every ledger state and every `(offset, limit)`, the
paginated active-offer query returns, in ascending id order, exactly the
slice `activeOffers[offset : min(offset + limit, total)]` of the offers
with `status = Open` and `now < expiry`, together with the true total
count of such offers.  An offset beyond the total yields the empty slice
(`drop` past the end) and a limit exceeding the remainder yields the
remainder, both special cases of the `drop`/`take` equation. -/
theorem C6_pagination (s : EscrowState) (now offset limit : Nat) :
    (getActiveOffersPaginated s now offset limit).ids
        = ((activeIds s now).drop offset).take limit ∧
    (getActiveOffersPaginated s now offset limit).totalActive
        = (activeIds s now).length ∧
    (getActiveOffersPaginated s now offset limit).activeOffers
        = (((activeIds s now).drop offset).take limit).map s.offers ∧
    List.Pairwise (fun i j => i < j) (getActiveOffersPaginated s now offset limit).ids := by
  have hcp : collectPage (isActive s now)
      (if (activeIds s now).length < offset then (activeIds s now).length else offset)
      (if (activeIds s now).length
            - (if (activeIds s now).length < offset then (activeIds s now).length else offset)
          < limit then
         (activeIds s now).length
            - (if (activeIds s now).length < offset then (activeIds s now).length else offset)
       else limit)
      (List.range s.nextOfferId) 0 0
      = ((activeIds s now).drop offset).take limit := by
    rw [collectPage_eq]
    simp only [Nat.sub_zero]
    have hfil : (List.range s.nextOfferId).filter (isActive s now) = activeIds s now := rfl
    rw [hfil]
    by_cases h1 : (activeIds s now).length < offset
    · rw [if_pos h1, List.drop_eq_nil_of_le (le_refl _),
        List.drop_eq_nil_of_le (le_of_lt h1)]
      simp
    · rw [if_neg h1]
      by_cases h2 : (activeIds s now).length - offset < limit
      · rw [if_pos h2, List.take_of_length_le (le_of_eq (List.length_drop _ _)),
          List.take_of_length_le (by rw [List.length_drop]; omega)]
      · rw [if_neg h2]
  refine ⟨?_, rfl, ?_, ?_⟩
  · simp only [getActiveOffersPaginated]
    exact hcp
  · simp only [getActiveOffersPaginated]
    rw [hcp]
  · simp only [getActiveOffersPaginated]
    rw [hcp]
    exact List.Pairwise.sublist ((List.take_sublist _ _).trans (List.drop_sublist _ _))
      (List.Pairwise.filter _ (List.pairwise_lt_range _))

end Tekton

namespace Tekton

/-- Monotone phases along a trace: intake and caller refunds (0) before
core stores (1) before fee routing and payouts (2). -/
def phasesMonotone (tr : List Ev) : Prop :=
  List.Pairwise (fun a b => phase a ≤ phase b) tr

theorem phasesMonotone_of_const (tr : List Ev) (n : Nat)
    (h : ∀ e ∈ tr, phase e = n) : phasesMonotone tr := by
  induction tr with
  | nil => exact List.Pairwise.nil
  | cons a t ih =>
      refine List.Pairwise.cons (fun b hb => ?_)
        (ih fun e he => h e (List.mem_cons_of_mem _ he))
      rw [h a (List.mem_cons_self _ _), h b (List.mem_cons_of_mem _ hb)]

theorem phasesMonotone_append {l1 l2 : List Ev} (h1 : phasesMonotone l1)
    (h2 : phasesMonotone l2) (hc : ∀ a ∈ l1, ∀ b ∈ l2, phase a ≤ phase b) :
    phasesMonotone (l1 ++ l2) :=
  List.pairwise_append.mpr ⟨h1, h2, hc⟩

theorem phase_mem_takerInEvs {o : Offer} {caller value : Nat} {e : Ev}
    (h : e ∈ takerInEvs o caller value) : phase e = 0 := by
  unfold takerInEvs at h
  split_ifs at h <;> simp_all [phase]

theorem phase_mem_feeRouteEvs {t recipient fee : Nat} {e : Ev}
    (h : e ∈ feeRouteEvs t recipient fee) : phase e = 2 := by
  unfold feeRouteEvs at h
  split_ifs at h <;> simp_all [phase]

theorem phase_mem_transferOutEvs {t target amount : Nat} {e : Ev}
    (h : e ∈ transferOutEvs t target amount) : phase e = 2 := by
  unfold transferOutEvs at h
  split_ifs at h <;> simp_all [phase]

theorem phasesMonotone_createEvsNative (caller value makerAmount stake : Nat) :
    phasesMonotone (createEvsNative caller value makerAmount stake) := by
  unfold phasesMonotone createEvsNative
  split_ifs <;> simp [List.pairwise_cons, phase]

theorem phasesMonotone_createEvsToken (caller value makerToken makerAmount stake : Nat) :
    phasesMonotone (createEvsToken caller value makerToken makerAmount stake) := by
  unfold phasesMonotone createEvsToken
  split_ifs <;> simp [List.pairwise_cons, phase]

theorem phase_le_two (e : Ev) : phase e ≤ 2 := by
  cases e <;> simp [phase]

theorem phasesMonotone_append_le (n : Nat) {l1 l2 : List Ev}
    (h1 : phasesMonotone l1) (h2 : phasesMonotone l2)
    (hb1 : ∀ a ∈ l1, phase a ≤ n) (hb2 : ∀ b ∈ l2, n ≤ phase b) :
    phasesMonotone (l1 ++ l2) :=
  List.pairwise_append.mpr ⟨h1, h2, fun a ha b hb => le_trans (hb1 a ha) (hb2 b hb)⟩

theorem phasesMonotone_stakeIf (token target amount : Nat) (c : Prop) [Decidable c] :
    phasesMonotone (if c then [Ev.payout token target amount] else []) := by
  split_ifs <;> simp [phasesMonotone, phase]

theorem phase_mem_stakeIf {token target amount : Nat} {c : Prop} [Decidable c] {e : Ev}
    (h : e ∈ (if c then [Ev.payout token target amount] else [])) : phase e = 2 := by
  split_ifs at h <;> simp_all [phase]

theorem phasesMonotone_refundEvs (offer : Offer) : phasesMonotone (refundEvs offer) := by
  unfold refundEvs
  refine phasesMonotone_append_le 2 (phasesMonotone_append_le 2 ?_ ?_ ?_ ?_)
      (phasesMonotone_stakeIf _ _ _ _) (fun a _ => phase_le_two a)
      (fun b hb => le_of_eq (phase_mem_stakeIf hb).symm)
  · simp [phasesMonotone, List.pairwise_cons, phase]
  · exact phasesMonotone_of_const _ 2 fun e he => phase_mem_transferOutEvs he
  · exact fun a _ => phase_le_two a
  · exact fun b hb => le_of_eq (phase_mem_transferOutEvs hb).symm

theorem phasesMonotone_acceptEvs (s : EscrowState) (caller value offerId : Nat) :
    phasesMonotone (acceptEvs s caller value offerId) := by
  unfold acceptEvs
  have hB : phasesMonotone [Ev.writeCore, Ev.writeCore, Ev.writeCore, Ev.writeCore] := by
    simp [phasesMonotone, List.pairwise_cons, phase]
  have hBlo : ∀ b ∈ [Ev.writeCore, Ev.writeCore, Ev.writeCore, Ev.writeCore],
      1 ≤ phase b := by
    intro b hb
    simp only [List.mem_cons, List.not_mem_nil, or_false] at hb
    rcases hb with rfl | rfl | rfl | rfl <;> simp [phase]
  have hC : phasesMonotone (feeRouteEvs (s.offers offerId).takerToken s.feeRecipient
      (makerFeeOf (s.offers offerId) s.platformFeeBps)) :=
    phasesMonotone_of_const _ 2 fun e he => phase_mem_feeRouteEvs he
  have hD : phasesMonotone (feeRouteEvs (s.offers offerId).makerToken s.feeRecipient
      (takerFeeOf (s.offers offerId) s.platformFeeBps)) :=
    phasesMonotone_of_const _ 2 fun e he => phase_mem_feeRouteEvs he
  have hE : phasesMonotone (transferOutEvs (s.offers offerId).takerToken
      (s.offers offerId).maker (makerReceivesOf (s.offers offerId) s.platformFeeBps)) :=
    phasesMonotone_of_const _ 2 fun e he => phase_mem_transferOutEvs he
  have hF : phasesMonotone (transferOutEvs (s.offers offerId).makerToken caller
      (takerReceivesOf (s.offers offerId) s.platformFeeBps)) :=
    phasesMonotone_of_const _ 2 fun e he => phase_mem_transferOutEvs he
  have h1 : phasesMonotone (takerInEvs (s.offers offerId) caller value
      ++ [Ev.writeCore, Ev.writeCore, Ev.writeCore, Ev.writeCore]) :=
    phasesMonotone_append_le 1
      (phasesMonotone_of_const _ 0 fun e he => phase_mem_takerInEvs he) hB
      (fun a ha => by rw [phase_mem_takerInEvs ha]; omega) hBlo
  have h2 := phasesMonotone_append_le 2 h1 hC
    (fun a _ => phase_le_two a)
    (fun b hb => le_of_eq (phase_mem_feeRouteEvs hb).symm)
  have h3 := phasesMonotone_append_le 2 h2 hD
    (fun a _ => phase_le_two a)
    (fun b hb => le_of_eq (phase_mem_feeRouteEvs hb).symm)
  have h4 := phasesMonotone_append_le 2 h3 hE
    (fun a _ => phase_le_two a)
    (fun b hb => le_of_eq (phase_mem_transferOutEvs hb).symm)
  have h5 := phasesMonotone_append_le 2 h4 hF
    (fun a _ => phase_le_two a)
    (fun b hb => le_of_eq (phase_mem_transferOutEvs hb).symm)
  exact phasesMonotone_append_le 2 h5 (phasesMonotone_stakeIf _ _ _ _)
    (fun a _ => phase_le_two a)
    (fun b hb => le_of_eq (phase_mem_stakeIf hb).symm)

end Tekton

namespace Tekton

/-- Success characterization of `createOffer` (trace part): the trace is
the native-maker or the token-maker trace. -/
theorem createOffer_ok_evs {s : EscrowState}
    {caller value now mt ma tt ta ex al : Nat} {r : EscrowState × List Ev}
    (h : createOffer s caller value now mt ma tt ta ex al = Except.ok r) :
    r.2 = createEvsNative caller value ma s.minStake ∨
    r.2 = createEvsToken caller value mt ma s.minStake := by
  unfold createOffer at h
  split_ifs at h
  all_goals injection h with h
  all_goals subst h
  · exact Or.inl rfl
  · exact Or.inr rfl

/-- Claim C2 (amended): in every successful mutating call the event phases
are monotone — inbound pulls and excess `msg.value` refunds (phase 0) come
first, then the stores to the offer record, the profiles and the per-user
index (phase 1), then fee routing and payouts of escrowed value together
with the `accumulatedFees` store (phase 2).  In particular every payout of
escrowed value happens only after the offer record, profiles and per-user
index have reached their final form; but — contrary to the claim as
stated — the inbound token pull and the excess refund happen *before*
those stores, and the `accumulatedFees` counter may be bumped after an
ERC20 fee payout. -/
theorem C2_amended (s : EscrowState) (c : MCall) (r : EscrowState × List Ev)
    (h : runM s c = Except.ok r) : phasesMonotone r.2 := by
  cases c with
  | create caller value now mt ma tt ta ex al =>
      have h2 : createOffer s caller value now mt ma tt ta ex al = Except.ok r := h
      rcases createOffer_ok_evs h2 with he | he
      · rw [he]
        exact phasesMonotone_createEvsNative caller value ma s.minStake
      · rw [he]
        exact phasesMonotone_createEvsToken caller value mt ma s.minStake
  | accept caller value now offerId =>
      have h2 : acceptOffer s caller value now offerId = Except.ok r := h
      obtain ⟨-, -, -, -, hr⟩ := acceptOffer_ok_dest h2
      rw [hr]
      exact phasesMonotone_acceptEvs s caller value offerId
  | reqCancel caller now offerId =>
      have h2 : requestCancel s caller now offerId = Except.ok r := h
      obtain ⟨-, -, -, hr⟩ := requestCancel_ok_dest h2
      rw [hr]
      simp [phasesMonotone]
  | finCancel caller now offerId =>
      have h2 : finalizeCancel s caller now offerId = Except.ok r := h
      obtain ⟨-, -, -, -, hr⟩ := finalizeCancel_ok_dest h2
      rw [hr]
      exact phasesMonotone_refundEvs (s.offers offerId)
  | reclaim caller now offerId =>
      have h2 : reclaimExpired s caller now offerId = Except.ok r := h
      obtain ⟨-, -, -, hr⟩ := reclaimExpired_ok_dest h2
      rw [hr]
      exact phasesMonotone_refundEvs (s.offers offerId)

/-- Claim C2, counterexample to the claim as stated: a successful
`createOffer` with an ERC20 maker asset (maker 1 sells 100 of token 7 for
50 native, sending exactly the 5-unit stake) performs the external
`safeTransferFrom` pull *before* the offer record, counter and index
stores, so its trace is not of the internal-stores-first shape. -/
theorem C2_counterexample :
    isOk (createOffer exSt0 1 5 0 7 100 0 50 4000 0) = true ∧
    internalThenExternal (traceOf (createOffer exSt0 1 5 0 7 100 0 50 4000 0)) = false := by
  decide

/-- Claim C2, witness for the amended theorem at a concrete successful
`createOffer`. -/
theorem C2_witness :
    runM exSt0 exCreate = Except.ok (exSt1, traceOf exRes1) ∧
    phasesMonotone (traceOf exRes1) :=
  ⟨rfl, C2_amended exSt0 exCreate (exSt1, traceOf exRes1) rfl⟩

end Tekton

namespace Tekton

/-- Claim C1, counterexample to the claim as stated: in `exOpenState` the
maker (account 1) sold 100 native units and is to receive the 50-unit
taker leg.  The claim predicts the maker's `totalVolume` grows by the
received amount (50); after the settlement the ledger instead shows 100 —
the amount the maker deposited.  Likewise the taker (account 2) received
100 but is credited 50. -/
theorem C1_counterexample :
    isOk (acceptOffer exOpenState 2 0 5 0) = true ∧
    ((stateAfter (acceptOffer exOpenState 2 0 5 0) exSt0).profiles 1).totalVolume = 100 ∧
    ((stateAfter (acceptOffer exOpenState 2 0 5 0) exSt0).profiles 2).totalVolume = 50 ∧
    ((stateAfter (acceptOffer exOpenState 2 0 5 0) exSt0).profiles 1).totalVolume ≠ 50 := by
  decide

/-- Claim C1 (amended): on every successful `acceptOffer`, `_recordTrade`
credits each party with the amount that party *put into* the settlement:
the maker's `totalVolume` grows by `makerAmount` (the maker's own leg)
and the taker's by `takerAmount` (the taker's own leg) — not by the
amounts received. -/
theorem C1_amended (s : EscrowState) (caller value now offerId : Nat)
    (r : EscrowState × List Ev)
    (h : acceptOffer s caller value now offerId = Except.ok r) :
    (r.1.profiles (s.offers offerId).maker).totalVolume
        = (s.profiles (s.offers offerId).maker).totalVolume
            + (s.offers offerId).makerAmount ∧
    (r.1.profiles caller).totalVolume
        = (s.profiles caller).totalVolume + (s.offers offerId).takerAmount := by
  obtain ⟨-, -, hMk, -, hr⟩ := acceptOffer_ok_dest h
  rw [hr]
  refine ⟨?_, ?_⟩ <;>
    simp [acceptState, recordTradeMap, updMap, recordTrade, hMk, Ne.symm hMk]

/-- Claim C1, witness for the amended theorem at a concrete settlement. -/
theorem C1_witness :
    acceptOffer exOpenState 2 0 5 0
      = Except.ok (stateAfter (acceptOffer exOpenState 2 0 5 0) exSt0,
          traceOf (acceptOffer exOpenState 2 0 5 0)) ∧
    ((stateAfter (acceptOffer exOpenState 2 0 5 0) exSt0).profiles
        (exOpenState.offers 0).maker).totalVolume
      = (exOpenState.profiles (exOpenState.offers 0).maker).totalVolume
          + (exOpenState.offers 0).makerAmount :=
  ⟨rfl,
   (C1_amended exOpenState 2 0 5 0
      (stateAfter (acceptOffer exOpenState 2 0 5 0) exSt0,
        traceOf (acceptOffer exOpenState 2 0 5 0)) rfl).1⟩

end Tekton

namespace Tekton

/-- `acceptOffer` rejects a non-`Open` offer at its first check. -/
theorem acceptOffer_error_not_open {s : EscrowState} {caller value now offerId : Nat}
    (h : (s.offers offerId).status ≠ OfferStatus.Open) :
    acceptOffer s caller value now offerId = Except.error "Offer not open" := by
  unfold acceptOffer
  exact if_pos h

/-- `requestCancel` fails on a non-`Open` offer (either at the maker
check or at the status check). -/
theorem requestCancel_fails_not_open {s : EscrowState} {caller now offerId : Nat}
    (h : (s.offers offerId).status ≠ OfferStatus.Open) :
    ∃ e, requestCancel s caller now offerId = Except.error e := by
  unfold requestCancel
  by_cases hm : (s.offers offerId).maker ≠ caller
  · exact ⟨"Not the maker", if_pos hm⟩
  · refine ⟨"Offer not open", ?_⟩
    rw [if_neg hm, if_pos h]

/-- `finalizeCancel` fails on a non-`Open` offer. -/
theorem finalizeCancel_fails_not_open {s : EscrowState} {caller now offerId : Nat}
    (h : (s.offers offerId).status ≠ OfferStatus.Open) :
    ∃ e, finalizeCancel s caller now offerId = Except.error e := by
  unfold finalizeCancel
  by_cases hm : (s.offers offerId).maker ≠ caller
  · exact ⟨"Not the maker", if_pos hm⟩
  · refine ⟨"Offer not open", ?_⟩
    rw [if_neg hm, if_pos h]

/-- `reclaimExpired` fails on a non-`Open` offer. -/
theorem reclaimExpired_fails_not_open {s : EscrowState} {caller now offerId : Nat}
    (h : (s.offers offerId).status ≠ OfferStatus.Open) :
    ∃ e, reclaimExpired s caller now offerId = Except.error e := by
  unfold reclaimExpired
  by_cases hm : (s.offers offerId).maker ≠ caller
  · exact ⟨"Not the maker", if_pos hm⟩
  · refine ⟨"Offer not open", ?_⟩
    rw [if_neg hm, if_pos h]

/-- Claim C3: per-offer terminality.  In a reachable state whose offer
`id` has left `Open`: (a) every mutating call targeting `id` fails;
(b) every successful mutating call (targeting `id` or not, including
`createOffer`) leaves the record at `id` untouched, so a terminal status
is never left; and (c) in any state, each of the three settling calls
(`acceptOffer`, `finalizeCancel`, `reclaimExpired`) moves its target out
of `Open` on success — hence at most one of them ever succeeds per
offer. -/
theorem C3_terminal_status (s : EscrowState) (hs : Reachable s) (id : Nat)
    (hterm : (s.offers id).status ≠ OfferStatus.Open) :
    (∀ c : MCall, targetOf c = some id → ∃ e, runM s c = Except.error e) ∧
    (∀ (c : MCall) (r : EscrowState × List Ev), runM s c = Except.ok r →
      r.1.offers id = s.offers id) ∧
    (∀ (s2 : EscrowState) (c : MCall) (r : EscrowState × List Ev) (id2 : Nat),
      settles c = true → targetOf c = some id2 → runM s2 c = Except.ok r →
      (r.1.offers id2).status ≠ OfferStatus.Open) := by
  obtain ⟨hOffers, -, -⟩ := reachable_good hs
  have hlt : id < s.nextOfferId := by
    by_contra hge
    push_neg at hge
    rw [hOffers id hge] at hterm
    simp [defaultOffer] at hterm
  refine ⟨?_, ?_, ?_⟩
  · intro c htc
    cases c with
    | create caller value now mt ma tt ta ex al => simp [targetOf] at htc
    | accept caller value now offerId =>
        simp only [targetOf, Option.some.injEq] at htc
        subst htc
        exact ⟨"Offer not open", acceptOffer_error_not_open hterm⟩
    | reqCancel caller now offerId =>
        simp only [targetOf, Option.some.injEq] at htc
        subst htc
        exact requestCancel_fails_not_open hterm
    | finCancel caller now offerId =>
        simp only [targetOf, Option.some.injEq] at htc
        subst htc
        exact finalizeCancel_fails_not_open hterm
    | reclaim caller now offerId =>
        simp only [targetOf, Option.some.injEq] at htc
        subst htc
        exact reclaimExpired_fails_not_open hterm
  · intro c r hok
    cases c with
    | create caller value now mt ma tt ta ex al =>
        have h2 : createOffer s caller value now mt ma tt ta ex al = Except.ok r := hok
        rw [createOffer_ok_state h2]
        simp only [createState]
        exact updMap_ne _ _ _ (by omega)
    | accept caller value now offerId =>
        have h2 : acceptOffer s caller value now offerId = Except.ok r := hok
        obtain ⟨hOpen, -, -, -, hr⟩ := acceptOffer_ok_dest h2
        have hne : id ≠ offerId := fun hEq => hterm (hEq ▸ hOpen)
        rw [hr]
        simp only [acceptState]
        exact updMap_ne _ _ _ hne
    | reqCancel caller now offerId =>
        have h2 : requestCancel s caller now offerId = Except.ok r := hok
        obtain ⟨-, hOpen, -, hr⟩ := requestCancel_ok_dest h2
        have hne : id ≠ offerId := fun hEq => hterm (hEq ▸ hOpen)
        rw [hr]
        simp only [requestState]
        exact updMap_ne _ _ _ hne
    | finCancel caller now offerId =>
        have h2 : finalizeCancel s caller now offerId = Except.ok r := hok
        obtain ⟨-, hOpen, -, -, hr⟩ := finalizeCancel_ok_dest h2
        have hne : id ≠ offerId := fun hEq => hterm (hEq ▸ hOpen)
        rw [hr]
        simp only [finalizeState]
        exact updMap_ne _ _ _ hne
    | reclaim caller now offerId =>
        have h2 : reclaimExpired s caller now offerId = Except.ok r := hok
        obtain ⟨-, hOpen, -, hr⟩ := reclaimExpired_ok_dest h2
        have hne : id ≠ offerId := fun hEq => hterm (hEq ▸ hOpen)
        rw [hr]
        simp only [reclaimState]
        exact updMap_ne _ _ _ hne
  · intro s2 c r id2 hset htc hok
    cases c with
    | create caller value now mt ma tt ta ex al => simp [settles] at hset
    | reqCancel caller now offerId => simp [settles] at hset
    | accept caller value now offerId =>
        simp only [targetOf, Option.some.injEq] at htc
        subst htc
        have h2 : acceptOffer s2 caller value now offerId = Except.ok r := hok
        obtain ⟨-, -, -, -, hr⟩ := acceptOffer_ok_dest h2
        rw [hr]
        simp [acceptState, updMap]
    | finCancel caller now offerId =>
        simp only [targetOf, Option.some.injEq] at htc
        subst htc
        have h2 : finalizeCancel s2 caller now offerId = Except.ok r := hok
        obtain ⟨-, -, -, -, hr⟩ := finalizeCancel_ok_dest h2
        rw [hr]
        simp [finalizeState, updMap]
    | reclaim caller now offerId =>
        simp only [targetOf, Option.some.injEq] at htc
        subst htc
        have h2 : reclaimExpired s2 caller now offerId = Except.ok r := hok
        obtain ⟨-, -, -, hr⟩ := reclaimExpired_ok_dest h2
        rw [hr]
        simp [reclaimState, updMap]

/-- Claim C3, witness: in the concrete reachable run the offer settled by
`exAccept` is terminal, and a further `acceptOffer` on it fails. -/
theorem C3_witness :
    (exSt2.offers 0).status ≠ OfferStatus.Open ∧
    (∃ e, runM exSt2 (MCall.accept 3 0 20 0) = Except.error e) :=
  ⟨by decide,
   (C3_terminal_status exSt2 exSt2_reachable 0 (by decide)).1 (MCall.accept 3 0 20 0) rfl⟩

end Tekton

namespace Tekton

/-- Claim C4: for every account in every reachable state the reliability
score lies in `[0, 100]` (the lower bound is inherent to `Nat`); a profile
whose total history count is zero scores 0, and a profile with no
completed trades scores 0 (in reachable states such a profile also has
zero volume and no first-trade timestamp, so all three summands vanish). -/
theorem C4_score_bounds (s : EscrowState) (hs : Reachable s) (now user : Nat) :
    getReliabilityScore s now user ≤ 100 ∧
    ((s.profiles user).tradesCompleted + (s.profiles user).offersCancelled
        + (s.profiles user).offersExpired = 0 → getReliabilityScore s now user = 0) ∧
    ((s.profiles user).tradesCompleted = 0 → getReliabilityScore s now user = 0) := by
  obtain ⟨-, hProf, -⟩ := reachable_good hs
  have hcomp : (s.profiles user).tradesCompleted * 80
      / ((s.profiles user).tradesCompleted + (s.profiles user).offersCancelled
          + (s.profiles user).offersExpired) ≤ 80 := by
    rcases Nat.eq_zero_or_pos ((s.profiles user).tradesCompleted
        + (s.profiles user).offersCancelled + (s.profiles user).offersExpired) with h | h
    · rw [h]
      simp
    · calc (s.profiles user).tradesCompleted * 80
            / ((s.profiles user).tradesCompleted + (s.profiles user).offersCancelled
                + (s.profiles user).offersExpired)
          ≤ ((s.profiles user).tradesCompleted + (s.profiles user).offersCancelled
                + (s.profiles user).offersExpired) * 80
            / ((s.profiles user).tradesCompleted + (s.profiles user).offersCancelled
                + (s.profiles user).offersExpired) :=
            Nat.div_le_div_right (Nat.mul_le_mul_right 80 (by omega))
        _ = 80 := Nat.mul_div_cancel_left 80 h
  have hage : (if 0 < (s.profiles user).firstTradeAt then
      (if 90 ≤ (now - (s.profiles user).firstTradeAt) / 86400 then 10
       else (now - (s.profiles user).firstTradeAt) / 86400 * 10 / 90)
      else 0) ≤ 10 := by
    split_ifs with h1 h2
    · omega
    · exact le_trans (Nat.div_le_div_right
        (by omega : (now - (s.profiles user).firstTradeAt) / 86400 * 10 ≤ 890))
        (by norm_num)
    · omega
  have hvol : (if volumeCap ≤ (s.profiles user).totalVolume then 10
      else (s.profiles user).totalVolume * 10 / volumeCap) ≤ 10 := by
    split_ifs with h1
    · omega
    · have hlt : (s.profiles user).totalVolume * 10 / volumeCap < 10 := by
        rw [Nat.div_lt_iff_lt_mul (by decide : 0 < volumeCap)]
        omega
      omega
  refine ⟨?_, ?_, ?_⟩
  · by_cases h0 : (s.profiles user).tradesCompleted + (s.profiles user).offersCancelled
        + (s.profiles user).offersExpired = 0
    · unfold getReliabilityScore
      rw [if_pos h0]
      omega
    · unfold getReliabilityScore
      rw [if_neg h0]
      omega
  · intro h0
    unfold getReliabilityScore
    rw [if_pos h0]
  · intro h0
    obtain ⟨hv, hf⟩ := hProf user h0
    by_cases hT : (s.profiles user).tradesCompleted + (s.profiles user).offersCancelled
        + (s.profiles user).offersExpired = 0
    · unfold getReliabilityScore
      rw [if_pos hT]
    · unfold getReliabilityScore
      rw [if_neg hT, h0, hf, hv]
      norm_num [volumeCap]

/-- Claim C4, witness at the freshly deployed state: the empty profile
scores 0 ≤ 100. -/
theorem C4_witness :
    getReliabilityScore (initialState 5 30 9) 0 0 ≤ 100 ∧
    getReliabilityScore (initialState 5 30 9) 0 0 = 0 :=
  ⟨(C4_score_bounds (initialState 5 30 9)
      (Reachable.init 5 30 9 (by decide) (by decide)) 0 0).1,
   (C4_score_bounds (initialState 5 30 9)
      (Reachable.init 5 30 9 (by decide) (by decide)) 0 0).2.2 rfl⟩

end Tekton

namespace Tekton

/-- A fee computed at a rate of at most 10000 bps never exceeds the
amount it is taken from. -/
theorem feeOf_le {amount bps : Nat} (h : bps ≤ 10000) : feeOf amount bps ≤ amount :=
  le_trans (Nat.div_le_div_right (Nat.mul_le_mul_left amount h))
    (le_of_eq (Nat.mul_div_cancel amount (by norm_num)))

/-- Claim C5: on every successful `acceptOffer` in a reachable state,
with `makerFee = floor(takerAmount * feeBps / 10000)` and
`takerFee = floor(makerAmount * feeBps / 10000)`, the settlement amounts
satisfy `makerReceives + takerReceives + makerFee + takerFee =
makerAmount + takerAmount` (no value created or destroyed), and the trace
pays out the stake to the maker and the two principal legs to the two
parties whenever those amounts are nonzero (`_transferOut` skips zero
amounts). -/
theorem C5_conservation (s : EscrowState) (hs : Reachable s)
    (caller value now offerId : Nat) (r : EscrowState × List Ev)
    (h : acceptOffer s caller value now offerId = Except.ok r) :
    makerReceivesOf (s.offers offerId) s.platformFeeBps
        + takerReceivesOf (s.offers offerId) s.platformFeeBps
        + makerFeeOf (s.offers offerId) s.platformFeeBps
        + takerFeeOf (s.offers offerId) s.platformFeeBps
      = (s.offers offerId).makerAmount + (s.offers offerId).takerAmount ∧
    (0 < (s.offers offerId).stake →
      Ev.payout 0 (s.offers offerId).maker (s.offers offerId).stake ∈ r.2) ∧
    (0 < makerReceivesOf (s.offers offerId) s.platformFeeBps →
      Ev.payout (s.offers offerId).takerToken (s.offers offerId).maker
        (makerReceivesOf (s.offers offerId) s.platformFeeBps) ∈ r.2) ∧
    (0 < takerReceivesOf (s.offers offerId) s.platformFeeBps →
      Ev.payout (s.offers offerId).makerToken caller
        (takerReceivesOf (s.offers offerId) s.platformFeeBps) ∈ r.2) := by
  obtain ⟨-, -, hFee⟩ := reachable_good hs
  obtain ⟨-, -, -, -, hr⟩ := acceptOffer_ok_dest h
  have hbps : s.platformFeeBps ≤ 10000 := by
    unfold MAX_FEE_BPS at hFee
    omega
  have hmf : makerFeeOf (s.offers offerId) s.platformFeeBps
      ≤ (s.offers offerId).takerAmount := feeOf_le hbps
  have htf : takerFeeOf (s.offers offerId) s.platformFeeBps
      ≤ (s.offers offerId).makerAmount := feeOf_le hbps
  refine ⟨?_, ?_, ?_, ?_⟩
  · unfold makerReceivesOf takerReceivesOf
    omega
  · intro hpos
    rw [hr]
    unfold acceptEvs
    simp [List.mem_append, hpos]
  · intro hpos
    rw [hr]
    unfold acceptEvs
    simp [List.mem_append, transferOutEvs, Nat.pos_iff_ne_zero.mp hpos]
  · intro hpos
    rw [hr]
    unfold acceptEvs
    simp [List.mem_append, transferOutEvs, Nat.pos_iff_ne_zero.mp hpos]

/-- Claim C5, witness: the concrete settlement of the reachable run (fee
30 bps truncates both fees to zero at this scale): 50 + 100 + 0 + 0 =
100 + 50, and the 5-unit stake goes back to maker 1. -/
theorem C5_witness :
    acceptOffer exSt1 2 0 10 0 = Except.ok (exSt2, traceOf exRes2) ∧
    makerReceivesOf (exSt1.offers 0) exSt1.platformFeeBps
        + takerReceivesOf (exSt1.offers 0) exSt1.platformFeeBps
        + makerFeeOf (exSt1.offers 0) exSt1.platformFeeBps
        + takerFeeOf (exSt1.offers 0) exSt1.platformFeeBps
      = (exSt1.offers 0).makerAmount + (exSt1.offers 0).takerAmount ∧
    Ev.payout 0 1 5 ∈ traceOf exRes2 :=
  ⟨rfl,
   (C5_conservation exSt1 exSt1_reachable 2 0 10 0 (exSt2, traceOf exRes2) rfl).1,
   (C5_conservation exSt1 exSt1_reachable 2 0 10 0 (exSt2, traceOf exRes2) rfl).2.1
     (by decide)⟩

end Tekton

namespace Tekton

/-- Cancel requested on the concrete open offer at literal time 0: the
recorded timestamp coincides with the "no request" sentinel. -/
def exReq0Res : Except String (EscrowState × List Ev) := requestCancel exOpenState 1 0 0

def exReq0St : EscrowState := stateAfter exReq0Res exSt0

/-- Cancel requested on the concrete open offer at time 1. -/
def exReq1Res : Except String (EscrowState × List Ev) := requestCancel exOpenState 1 1 0

def exReq1St : EscrowState := stateAfter exReq1Res exSt0

/-- Claim C7 (amended): after `requestCancel` at time `T ≥ 1` on an open
offer, (a) a successful `acceptOffer` at any time — in particular during
`[T, T + D)` — settles the offer and resets `cancelRequestedAt` to 0,
after which `finalizeCancel` always fails; (b) `finalizeCancel` by the
maker at any time `≥ T + D` on the still-open offer succeeds.  The
amendment restricts the request time to `T ≥ 1`: a request recorded at
literal time 0 leaves `cancelRequestedAt = 0`, the "no request" sentinel,
and `finalizeCancel` then fails forever. -/
theorem C7_amended (s : EscrowState) (offerId maker T : Nat) (s1 : EscrowState)
    (tr : List Ev) (hT : 1 ≤ T)
    (hreq : requestCancel s maker T offerId = Except.ok (s1, tr)) :
    (∀ (taker value t : Nat) (r : EscrowState × List Ev),
        T ≤ t → t < T + CANCEL_COOLDOWN →
        acceptOffer s1 taker value t offerId = Except.ok r →
        (r.1.offers offerId).status = OfferStatus.Settled ∧
        (r.1.offers offerId).cancelRequestedAt = 0 ∧
        ∀ (caller2 t2 : Nat), ∃ e, finalizeCancel r.1 caller2 t2 offerId = Except.error e) ∧
    (∀ t : Nat, T + CANCEL_COOLDOWN ≤ t →
        finalizeCancel s1 maker t offerId
          = Except.ok (finalizeState s1 offerId, refundEvs (s1.offers offerId))) := by
  obtain ⟨hMk, hOpen, hZero, hpair⟩ := requestCancel_ok_dest hreq
  injection hpair with hs1 htr
  subst hs1
  have ho1 : (requestState s T offerId).offers offerId
      = { s.offers offerId with cancelRequestedAt := T } := by
    simp [requestState, updMap]
  constructor
  · intro taker value t r hle hlt hacc
    obtain ⟨-, -, -, -, hr⟩ := acceptOffer_ok_dest hacc
    rw [hr]
    refine ⟨?_, ?_, ?_⟩
    · simp [acceptState, updMap]
    · simp [acceptState, updMap]
    · intro caller2 t2
      apply finalizeCancel_fails_not_open
      simp [acceptState, updMap]
  · intro t ht
    apply finalizeCancel_ok_of
    · rw [ho1]
      exact hMk
    · rw [ho1]
      exact hOpen
    · rw [ho1]
      show ¬ T = 0
      omega
    · rw [ho1]
      show T + CANCEL_COOLDOWN ≤ t
      exact ht

/-- Claim C7, counterexample to the claim as stated: a cancel request at
literal time `T = 0` succeeds but records the sentinel value 0, so
`finalizeCancel` by the maker at time `1800 = T + D` on the still-open
offer fails with "Cancel not requested" instead of succeeding. -/
theorem C7_counterexample :
    isOk (requestCancel exOpenState 1 0 0) = true ∧
    (exReq0St.offers 0).status = OfferStatus.Open ∧
    errOf (finalizeCancel exReq0St 1 1800 0) = some "Cancel not requested" := by
  decide

/-- Claim C7, witness for the amended theorem: request at `T = 1`,
finalize at `1801 = T + D` succeeds. -/
theorem C7_witness :
    (1 ≤ 1 ∧ requestCancel exOpenState 1 1 0 = Except.ok (exReq1St, traceOf exReq1Res)) ∧
    finalizeCancel exReq1St 1 1801 0
      = Except.ok (finalizeState exReq1St 0, refundEvs (exReq1St.offers 0)) :=
  ⟨⟨le_refl 1, rfl⟩,
   (C7_amended exOpenState 0 1 1 exReq1St (traceOf exReq1Res) (le_refl 1) rfl).2
     1801 (by decide)⟩

end Tekton

namespace Tekton

/-- Claim C8 (amended): (i) `finalizeCancel` succeeds if and only if the
caller is the offer's maker, the status is `Open`, `cancelRequestedAt > 0`
and `now ≥ cancelRequestedAt + 1800`; (ii) on success it sets the status
to `Cancelled`, increments the maker's `offersCancelled` and pays the
locked `makerAmount` and the stake back to the maker; (iii) the worked
example holds for any request time `T ≥ 1`: `finalizeCancel` at
`T + 1799` fails with the cooldown error and at `T + 1800` succeeds.
The amendment moves the example off `T = 0`, where the recorded request
timestamp is the "no request" sentinel and `finalizeCancel` fails with
"Cancel not requested" instead. -/
theorem C8_amended :
    (∀ (s : EscrowState) (caller now offerId : Nat),
      isOk (finalizeCancel s caller now offerId) = true ↔
        ((s.offers offerId).maker = caller ∧
         (s.offers offerId).status = OfferStatus.Open ∧
         0 < (s.offers offerId).cancelRequestedAt ∧
         (s.offers offerId).cancelRequestedAt + CANCEL_COOLDOWN ≤ now)) ∧
    (∀ (s : EscrowState) (caller now offerId : Nat) (r : EscrowState × List Ev),
      finalizeCancel s caller now offerId = Except.ok r →
      (r.1.offers offerId).status = OfferStatus.Cancelled ∧
      (r.1.profiles (s.offers offerId).maker).offersCancelled
        = (s.profiles (s.offers offerId).maker).offersCancelled + 1 ∧
      (0 < (s.offers offerId).makerAmount →
        Ev.payout (s.offers offerId).makerToken (s.offers offerId).maker
          (s.offers offerId).makerAmount ∈ r.2) ∧
      (0 < (s.offers offerId).stake →
        Ev.payout 0 (s.offers offerId).maker (s.offers offerId).stake ∈ r.2)) ∧
    (∀ (s : EscrowState) (maker T offerId : Nat) (s1 : EscrowState) (tr : List Ev),
      1 ≤ T → requestCancel s maker T offerId = Except.ok (s1, tr) →
      errOf (finalizeCancel s1 maker (T + 1799) offerId) = some "Cooldown not elapsed" ∧
      isOk (finalizeCancel s1 maker (T + 1800) offerId) = true) := by
  refine ⟨?_, ?_, ?_⟩
  · intro s caller now offerId
    constructor
    · intro hok
      cases hh : finalizeCancel s caller now offerId with
      | error e =>
          rw [hh] at hok
          simp [isOk] at hok
      | ok r =>
          obtain ⟨h1, h2, h3, h4, -⟩ := finalizeCancel_ok_dest hh
          exact ⟨h1, h2, h3, h4⟩
    · rintro ⟨h1, h2, h3, h4⟩
      rw [finalizeCancel_ok_of h1 h2 (by omega) h4]
      rfl
  · intro s caller now offerId r hok
    obtain ⟨-, -, -, -, hr⟩ := finalizeCancel_ok_dest hok
    rw [hr]
    refine ⟨?_, ?_, ?_, ?_⟩
    · simp [finalizeState, updMap]
    · simp [finalizeState, updMap]
    · intro hpos
      unfold refundEvs
      simp [List.mem_append, transferOutEvs, Nat.pos_iff_ne_zero.mp hpos]
    · intro hpos
      unfold refundEvs
      simp [List.mem_append, hpos]
  · intro s maker T offerId s1 tr hT hreq
    obtain ⟨hMk, hOpen, hZero, hpair⟩ := requestCancel_ok_dest hreq
    injection hpair with hs1 htr
    subst hs1
    have ho1 : (requestState s T offerId).offers offerId
        = { s.offers offerId with cancelRequestedAt := T } := by
      simp [requestState, updMap]
    constructor
    · have herr : finalizeCancel (requestState s T offerId) maker (T + 1799) offerId
          = Except.error "Cooldown not elapsed" := by
        unfold finalizeCancel
        rw [ho1, if_neg (by simp [hMk]), if_neg (by simp [hOpen]),
          if_neg (by show ¬ T = 0; omega),
          if_pos (by show T + 1799 < T + CANCEL_COOLDOWN; unfold CANCEL_COOLDOWN; omega)]
      rw [herr]
      rfl
    · rw [finalizeCancel_ok_of (by rw [ho1]; exact hMk) (by rw [ho1]; exact hOpen)
        (by rw [ho1]; show ¬ T = 0; omega)
        (by rw [ho1]; show T + CANCEL_COOLDOWN ≤ T + 1800; unfold CANCEL_COOLDOWN; omega)]
      rfl

/-- Claim C8, counterexample to the claim as stated: with the cancel
requested at literal `T = 0`, `finalizeCancel` at `T + 1799 = 1799` fails
with "Cancel not requested" — not the promised cooldown-not-elapsed
error — and at `T + 1800 = 1800` it fails instead of succeeding. -/
theorem C8_counterexample :
    isOk (requestCancel exOpenState 1 0 0) = true ∧
    errOf (finalizeCancel exReq0St 1 1799 0) = some "Cancel not requested" ∧
    isOk (finalizeCancel exReq0St 1 1800 0) = false := by
  decide

/-- Claim C8, witness for the amended theorem at a concrete request made
at `T = 1`. -/
theorem C8_witness :
    (1 ≤ 1 ∧ requestCancel exOpenState 1 1 0 = Except.ok (exReq1St, traceOf exReq1Res)) ∧
    errOf (finalizeCancel exReq1St 1 (1 + 1799) 0) = some "Cooldown not elapsed" ∧
    isOk (finalizeCancel exReq1St 1 (1 + 1800) 0) = true :=
  ⟨⟨le_refl 1, rfl⟩,
   C8_amended.2.2 exOpenState 1 1 0 exReq1St (traceOf exReq1Res) (le_refl 1) rfl⟩

end Tekton

namespace Tekton

/-- Claim C9: in a reachable state, every never-created offer id
(`id ≥ nextOfferId`) still holds the zero record, whose status enum value
is `Open` and whose `expiry` is 0.  `acceptOffer` therefore passes the
status check and is rejected by the expiry check (`now < 0` is false), so
the surfaced failure is the expired-offer error rather than a distinct
not-found error; the other three mutating calls fail the maker check
(the zero record's maker is `address(0)`, which cannot be the caller).
Every failing call returns an `Except.error`, so the ledger is left
unchanged by construction. -/
theorem C9_uncreated_id (s : EscrowState) (hs : Reachable s)
    (offerId caller value now : Nat) (hid : s.nextOfferId ≤ offerId)
    (hc : caller ≠ 0) :
    errOf (acceptOffer s caller value now offerId) = some "Offer expired" ∧
    errOf (requestCancel s caller now offerId) = some "Not the maker" ∧
    errOf (finalizeCancel s caller now offerId) = some "Not the maker" ∧
    errOf (reclaimExpired s caller now offerId) = some "Not the maker" := by
  obtain ⟨hOffers, -, -⟩ := reachable_good hs
  have hdef := hOffers offerId hid
  have hmk : defaultOffer.maker ≠ caller := fun h => hc h.symm
  refine ⟨?_, ?_, ?_, ?_⟩
  · unfold acceptOffer
    rw [hdef, if_neg (by simp [defaultOffer]), if_pos (by simp [defaultOffer])]
    rfl
  · unfold requestCancel
    rw [hdef, if_pos hmk]
    rfl
  · unfold finalizeCancel
    rw [hdef, if_pos hmk]
    rfl
  · unfold reclaimExpired
    rw [hdef, if_pos hmk]
    rfl

/-- Claim C9, witness at the freshly deployed state (no offers yet):
calls on id 0 by account 1 fail with the stated errors. -/
theorem C9_witness :
    ((initialState 0 0 1).nextOfferId ≤ 0 ∧ (1 : Nat) ≠ 0) ∧
    errOf (acceptOffer (initialState 0 0 1) 1 0 0 0) = some "Offer expired" ∧
    errOf (requestCancel (initialState 0 0 1) 1 0 0) = some "Not the maker" :=
  ⟨⟨by decide, by decide⟩,
   (C9_uncreated_id (initialState 0 0 1) (Reachable.init 0 0 1 (by decide) (by decide))
      0 1 0 0 (by decide) (by decide)).1,
   (C9_uncreated_id (initialState 0 0 1) (Reachable.init 0 0 1 (by decide) (by decide))
      0 1 0 0 (by decide) (by decide)).2.1⟩

/-- In the `acceptOffer` trace, any excess-value refund can only come
from the taker-side intake segment. -/
theorem refund_mem_acceptEvs {s : EscrowState} {caller value offerId target amount : Nat}
    (h : Ev.refund target amount ∈ acceptEvs s caller value offerId) :
    Ev.refund target amount ∈ takerInEvs (s.offers offerId) caller value := by
  unfold acceptEvs at h
  rcases List.mem_append.mp h with h | h
  · rcases List.mem_append.mp h with h | h
    · rcases List.mem_append.mp h with h | h
      · rcases List.mem_append.mp h with h | h
        · rcases List.mem_append.mp h with h | h
          · rcases List.mem_append.mp h with h | h
            · exact h
            · simp at h
          · have h2 := phase_mem_feeRouteEvs h
            simp [phase] at h2
        · have h2 := phase_mem_feeRouteEvs h
          simp [phase] at h2
      · have h2 := phase_mem_transferOutEvs h
        simp [phase] at h2
    · have h2 := phase_mem_transferOutEvs h
      simp [phase] at h2
  · have h2 := phase_mem_stakeIf h
    simp [phase] at h2

/-- Claim C10: on a successful `acceptOffer`, if the taker asset is a
fungible token the call performs no native refund at all — any value sent
along is simply retained by the engine; if the taker asset is native, the
entire excess `value - takerAmount` is refunded to the caller in the same
call (and nothing is refunded when the value sent is exact). -/
theorem C10_value_retention (s : EscrowState) (caller value now offerId : Nat)
    (r : EscrowState × List Ev)
    (h : acceptOffer s caller value now offerId = Except.ok r) :
    ((s.offers offerId).takerToken ≠ 0 →
      ∀ (target amount : Nat), Ev.refund target amount ∉ r.2) ∧
    ((s.offers offerId).takerToken = 0 →
      ((s.offers offerId).takerAmount < value →
        Ev.refund caller (value - (s.offers offerId).takerAmount) ∈ r.2) ∧
      (value ≤ (s.offers offerId).takerAmount →
        ∀ (target amount : Nat), Ev.refund target amount ∉ r.2)) := by
  obtain ⟨-, -, -, -, hr⟩ := acceptOffer_ok_dest h
  constructor
  · intro htt target amount hmem
    rw [hr] at hmem
    have h2 := refund_mem_acceptEvs hmem
    unfold takerInEvs at h2
    rw [if_neg htt] at h2
    simp at h2
  · intro htt
    constructor
    · intro hlt
      rw [hr]
      show Ev.refund caller (value - (s.offers offerId).takerAmount)
        ∈ acceptEvs s caller value offerId
      unfold acceptEvs takerInEvs
      rw [if_pos htt, if_pos (by omega : 0 < value - (s.offers offerId).takerAmount)]
      simp [List.mem_append]
    · intro hle target amount hmem
      rw [hr] at hmem
      have h2 := refund_mem_acceptEvs hmem
      unfold takerInEvs at h2
      rw [if_pos htt, if_neg (by omega : ¬ 0 < value - (s.offers offerId).takerAmount)] at h2
      simp at h2

/-- Claim C10, witness: accepting the concrete offer (ERC20 taker asset,
token 7) with 3 units of native value attached performs no refund — the
value is retained. -/
theorem C10_witness :
    acceptOffer exOpenState 2 3 5 0
      = Except.ok (stateAfter (acceptOffer exOpenState 2 3 5 0) exSt0,
          traceOf (acceptOffer exOpenState 2 3 5 0)) ∧
    (∀ (target amount : Nat),
      Ev.refund target amount ∉ traceOf (acceptOffer exOpenState 2 3 5 0)) :=
  ⟨rfl,
   (C10_value_retention exOpenState 2 3 5 0
      (stateAfter (acceptOffer exOpenState 2 3 5 0) exSt0,
        traceOf (acceptOffer exOpenState 2 3 5 0)) rfl).1 (by decide)⟩

end Tekton
